import Mathlib

/-!
Verification of the chunking and retrieval logic of a small RAG HTTP service
(`app.py`).  Python machine integers are modelled as `Int`/`Nat`; Python
strings as `String` or `List Char` (when character positions matter); calls
to the external collaborators (embedding provider, vector store, chat
provider) are explicit function parameters returning `Except`; a Python
`dict` is an association list in which the binding written last wins.
-/

namespace RagApp

/-- Payload values stored in the vector store (strings and integers cover the
fields this service writes). -/
inductive PVal where
  | pstr (s : String)
  | pnat (n : Nat)
deriving DecidableEq, Repr

/-- Lookup in an association list with Python `dict` semantics: the binding
written last wins. -/
def dget : List (String × PVal) → String → Option PVal
  | [], _ => none
  | p :: ps, k =>
    match dget ps k with
    | some v => some v
    | none => if p.1 = k then some p.2 else none

/-- Conversion of a payload value to text, mirroring Python `str()` as used in
an f-string. -/
def pvalStr : PVal → String
  | .pstr s => s
  | .pnat n => toString n

/-- Normalisation of one bound of a Python slice `s[a:b]` for a sequence of
length `n`: negative indices count from the end, then the bound is clamped
into `[0, n]`. -/
def pyClamp (n : Nat) (i : Int) : Nat :=
  min ((if i < 0 then (n : Int) + i else i).toNat) n

/-- Python slice `s[a:b]` on a list of characters. -/
def pySlice (s : List Char) (a b : Int) : List Char :=
  (s.take (pyClamp s.length b)).drop (pyClamp s.length a)

/-- Python slice `l[:k]` on a list. -/
def pyTakeTo {α : Type} (l : List α) (k : Int) : List α :=
  l.take (pyClamp l.length k)

/-- Python `s.rfind(pat)`: the greatest index at which `pat` occurs in `s`,
`none` when it does not occur (Python returns `-1` there). -/
def rfindSub (pat s : List Char) : Option Nat :=
  ((List.range (s.length + 1)).filter (fun i => (s.drop i).take pat.length == pat)).getLast?

/-- The natural-break markers of `chunk_text`, in the priority order of the
source: double newline, newline, period-space, space. -/
def breakChars : List (List Char) := [['\n', '\n'], ['\n'], ['.', ' '], [' ']]

/-- The end boundary chosen by one iteration of the `chunk_text` loop at
cursor `start`: the raw window end `min (start + cs) len`, moved back to just
after the last occurrence of the first break marker found in the window. -/
def curEnd (text : List Char) (cs : Int) (start : Int) : Int :=
  if min (start + cs) (text.length : Int) < (text.length : Int) then
    match breakChars.findSome?
        (fun p => (rfindSub p (pySlice text start (min (start + cs) (text.length : Int)))).map
          (· + p.length)) with
    | some off => start + (off : Int)
    | none => min (start + cs) (text.length : Int)
  else min (start + cs) (text.length : Int)

/-- The cursor update of the `chunk_text` loop:
`start = max(start + chunk_size - chunk_overlap, end - chunk_overlap)`. -/
def nextStart (text : List Char) (cs co : Int) (start : Int) : Int :=
  max (start + cs - co) (curEnd text cs start - co)

/-- The `while start < len(text)` loop of `chunk_text`, with explicit fuel;
it returns the `(start, end)` spans of the emitted chunks, or `none` when the
fuel runs out before the loop exits (modelling divergence). -/
def chunkSpansLoop (text : List Char) (cs co : Int) :
    Nat → Int → List (Int × Int) → Option (List (Int × Int))
  | 0, start, acc =>
    if start < (text.length : Int) then none else some acc.reverse
  | fuel + 1, start, acc =>
    if start < (text.length : Int) then
      chunkSpansLoop text cs co fuel (nextStart text cs co start)
        ((start, curEnd text cs start) :: acc)
    else some acc.reverse

/-- The spans of the chunks produced by `chunk_text` on a text longer than
`chunk_size`, starting from cursor 0. -/
def chunkSpans (text : List Char) (cs co : Int) (fuel : Nat) : Option (List (Int × Int)) :=
  chunkSpansLoop text cs co fuel 0 []

/-- `chunk_text(text, chunk_size, chunk_overlap)` from the source: a text of
length at most `chunk_size` is returned whole; otherwise the loop carves out
windows and the chunks are the corresponding slices of the text. -/
def chunk_text (text : List Char) (cs co : Int) (fuel : Nat) : Option (List (List Char)) :=
  if (text.length : Int) ≤ cs then some [text]
  else (chunkSpans text cs co fuel).map (fun l => l.map (fun p => pySlice text p.1 p.2))

/-- Decidable check that some span of `l` contains position `j`. -/
def coveredB (l : List (Int × Int)) (j : Int) : Bool :=
  l.any (fun p => p.1 ≤ j && j < p.2)

/-- The enumerated collection names of the service. -/
def COLLECTIONS : List String := ["slack", "docs", "codebase"]

/-- A raw match returned by the vector store: a similarity score (modelled as
`Int`, only its ordering matters) and a stored payload. -/
structure RawHit where
  score : Int
  payload : List (String × PVal)
deriving DecidableEq, Repr

/-- One entry of `search_results`: `{"text": payload.get("text", ""),
"score": score, "collection": c, "metadata": payload minus the "text" key}`. -/
structure Hit where
  text : PVal
  score : Int
  collection : String
  metadata : List (String × PVal)
deriving DecidableEq, Repr

/-- The dictionary appended to `search_results` for one raw match of
collection `c`. -/
def toHit (c : String) (r : RawHit) : Hit :=
  { text := (dget r.payload "text").getD (PVal.pstr "")
    score := r.score
    collection := c
    metadata := r.payload.filter (fun p => p.1 ≠ "text") }

/-- A role-tagged chat message. -/
structure Msg where
  role : String
  content : String
deriving DecidableEq, Repr

/-- The body of a `/query` request. -/
structure QueryRequest where
  query : String
  collection : Option String
  top_k : Int
deriving DecidableEq, Repr

/-- The body of a `/query` response; `sources = none` models the absence of
the `"sources"` field. -/
structure QueryResponse where
  answer : String
  sources : Option (List Hit)
deriving DecidableEq, Repr

deriving instance DecidableEq for Except

/-- The observable outcome of one `/query` request: the response (or a hard
error from an uncaught exception), the vector-store search calls issued
(collection name and limit), and the message list sent to the chat provider
when it was called. -/
structure QueryOutcome where
  result : Except Unit QueryResponse
  searchCalls : List (String × Int)
  chatMessages : Option (List Msg)
deriving DecidableEq, Repr

/-- The sort relation of `search_results.sort(key=score, reverse=True)`:
`a` may come before `b` when `b.score ≤ a.score`. -/
def hitLE (a b : Hit) : Prop := b.score ≤ a.score

instance : DecidableRel hitLE := fun a b => inferInstanceAs (Decidable (b.score ≤ a.score))

instance : IsTotal Hit hitLE := ⟨fun a b => le_total b.score a.score⟩

instance : IsTrans Hit hitLE := ⟨fun _ _ _ h1 h2 => le_trans h2 h1⟩

/-- Python `bool(s.strip()) == False`: every character of `s` is whitespace. -/
def pySpace (c : Char) : Bool :=
  c = ' ' || c = '\n' || c = '\t' || c = '\r' || c = '\x0b' || c = '\x0c'

/-- Bool test that `context.strip()` is falsy. -/
def blankStr (s : String) : Bool := s.data.all pySpace

/-- The fixed answer returned when no context was retrieved for a non-global
query. -/
def noInfoMsg : String :=
  "No relevant information found in the collections. Try querying 'global' knowledge."

/-- The system prompt used when context text is available. -/
def ctxSystemMsg (context : String) : String :=
  "You are a helpful assistant that answers questions based on the context provided.\n\nContext:\n"
    ++ context

/-- The system prompt of the pure general-knowledge path. -/
def genSystemMsg : String :=
  "You are a helpful assistant. Answer the following question using your general knowledge."

/-- The per-collection limit of the fan-out path:
`max(1, top_k // len(COLLECTIONS))` with Python floor division. -/
def fanoutLimit (topk : Int) : Int := max 1 (Int.fdiv topk (COLLECTIONS.length : Int))

/-- The results contributed by one collection in the fan-out path: an
exception from the store is caught and the collection contributes nothing. -/
def perColl {V : Type} (search : String → V → Int → Except Unit (List RawHit))
    (v : V) (L : Int) (c : String) : List Hit :=
  match search c v L with
  | .ok rs => rs.map (toHit c)
  | .error _ => []

/-- The fan-out over every enumerated collection: the search calls issued and
the concatenated per-collection results (never a hard error). -/
def fanout {V : Type} (search : String → V → Int → Except Unit (List RawHit))
    (v : V) (topk : Int) : (List (String × Int)) × Except Unit (List Hit) :=
  (COLLECTIONS.map (fun c => (c, fanoutLimit topk)),
    .ok ((COLLECTIONS.map (perColl search v (fanoutLimit topk))).flatten))

/-- The selector dispatch of the `/query` handler: a truthy selector that is
an enumerated collection is searched alone with limit `top_k` (a store
exception propagates); the selector `"global"` searches nothing; anything
else falls through to the fan-out over all collections. -/
def gatherPhase {V : Type} (search : String → V → Int → Except Unit (List RawHit))
    (v : V) (topk : Int) (col : Option String) :
    (List (String × Int)) × Except Unit (List Hit) :=
  match col with
  | some s =>
    if s ≠ "" ∧ s ∈ COLLECTIONS then
      ([(s, topk)],
        match search s v topk with
        | .ok rs => .ok (rs.map (toHit s))
        | .error _ => .error ())
    else if s = "global" then ([], .ok [])
    else fanout search v topk
  | none => fanout search v topk

/-- The context string built from the final result list:
`"\n\n".join(f"[{collection}] {text}")`. -/
def contextOf (l : List Hit) : String :=
  String.intercalate "\n\n" (l.map (fun r => "[" ++ r.collection ++ "] " ++ pvalStr r.text))

/-- The two-message prompt sent to the chat provider: a system message that
supplies the context when there is one, then the raw query. -/
def messagesOf (q context : String) : List Msg :=
  [⟨"system", if blankStr context then genSystemMsg else ctxSystemMsg context⟩, ⟨"user", q⟩]

/-- The tail of the `/query` handler after the matches are gathered: sort by
score descending (Python's sort is stable; `List.insertionSort` is the stable
sort with the same ordering), truncate to `top_k`, build the context string,
and either return the fixed no-information answer (non-global selector, blank
context) or delegate to the chat provider, attaching the truncated matches as
`"sources"`. -/
def respondPhase (chat : List Msg → Except Unit String) (q : String) (topk : Int)
    (isGlobal : Bool) (calls : List (String × Int)) (hits : List Hit) : QueryOutcome :=
  if blankStr (contextOf (pyTakeTo (List.insertionSort hitLE hits) topk)) && !isGlobal then
    ⟨.ok ⟨noInfoMsg, none⟩, calls, none⟩
  else
    match chat (messagesOf q (contextOf (pyTakeTo (List.insertionSort hitLE hits) topk))) with
    | .error _ =>
      ⟨.error (), calls,
        some (messagesOf q (contextOf (pyTakeTo (List.insertionSort hitLE hits) topk)))⟩
    | .ok ans =>
      ⟨.ok ⟨ans, some (pyTakeTo (List.insertionSort hitLE hits) topk)⟩, calls,
        some (messagesOf q (contextOf (pyTakeTo (List.insertionSort hitLE hits) topk)))⟩

/-- The `/query` handler: embed the query first (a provider failure is a hard
error regardless of the selector), gather matches per the selector, then
answer. -/
def queryModel {V : Type} (embed : String → Except Unit V)
    (search : String → V → Int → Except Unit (List RawHit))
    (chat : List Msg → Except Unit String) (req : QueryRequest) : QueryOutcome :=
  match embed req.query with
  | .error _ => ⟨.error (), [], none⟩
  | .ok v =>
    let st := gatherPhase search v req.top_k req.collection
    match st.2 with
    | .error _ => ⟨.error (), st.1, none⟩
    | .ok hits =>
      respondPhase chat req.query req.top_k (decide (req.collection = some "global")) st.1 hits

/-- An uploaded file, already decoded to text as the handler does. -/
structure FileUpload where
  filename : String
  content : List Char
deriving DecidableEq, Repr

/-- Errors of the ingest handler: a structured HTTP client error, or an
uncaught provider exception. -/
inductive IngestErr where
  | http (status : Nat) (detail : String)
  | upstream
deriving DecidableEq, Repr

/-- The success body of `/ingest`. -/
structure IngestResp where
  status : String
  chunks_processed : Nat
deriving DecidableEq, Repr

/-- A point upserted into the vector store. -/
structure IngPoint (V : Type) where
  pid : String
  vector : V
  payload : List (String × PVal)

/-- The observable outcome of one `/ingest` request: the response, the chunk
texts sent to the embedding provider (in order, including a final failed
attempt), and the batched upserts issued to the vector store. -/
structure IngestOutcome (V : Type) where
  result : Except IngestErr IngestResp
  embedCalls : List (List Char)
  upserts : List (String × List (IngPoint V))

/-- The detail string of the invalid-collection error
(`f"Collection must be one of {COLLECTIONS}"`). -/
def collectionsDetail : String := "Collection must be one of ['slack', 'docs', 'codebase']"

/-- The detail string of the missing-input error. -/
def inputDetail : String := "Either file or text must be provided"

/-- The payload stored for one chunk:
`{"text": chunk, "chunk_index": i, "total_chunks": total, **metadata}` — the
caller metadata is written last, so on a key collision it wins. -/
def mkChunkPayload (chunk : List Char) (i total : Nat) (md : List (String × PVal)) :
    List (String × PVal) :=
  [("text", PVal.pstr (String.mk chunk)), ("chunk_index", PVal.pnat i),
   ("total_chunks", PVal.pnat total)] ++ md

/-- The embedding loop over the chunks, starting at index `i`: each chunk is
embedded and becomes a point; a provider failure aborts the loop (the failed
attempt is logged). -/
def buildPoints {V : Type} (embed : List Char → Except Unit V) (idGen : Nat → String)
    (md : List (String × PVal)) (total : Nat) :
    Nat → List (List Char) → (List (List Char)) × Except Unit (List (IngPoint V))
  | _, [] => ([], .ok [])
  | i, c :: cs =>
    match embed c with
    | .error _ => ([c], .error ())
    | .ok v =>
      let rest := buildPoints embed idGen md total (i + 1) cs
      (c :: rest.1, rest.2.map (fun ps => ⟨idGen i, v, mkChunkPayload c i total md⟩ :: ps))

/-- The `/ingest` handler: reject an unknown collection, take the document
text from the file (recording its filename into the metadata) or from the
inline text when truthy, chunk with the defaults (1000, 200), embed each
chunk into a point, and upsert all points in one batch when there are any.
`none` models divergence of the chunking loop (unreachable for the default
parameters). -/
def ingestModel {V : Type} (embed : List Char → Except Unit V) (idGen : Nat → String)
    (collection : String) (file : Option FileUpload) (text : Option (List Char))
    (metadata : List (String × PVal)) : Option (IngestOutcome V) :=
  if collection ∈ COLLECTIONS then
    let docMd : Option ((List Char) × List (String × PVal)) :=
      match file with
      | some f => some (f.content, metadata ++ [("filename", PVal.pstr f.filename)])
      | none =>
        match text with
        | some t => if t = [] then none else some (t, metadata)
        | none => none
    match docMd with
    | none => some ⟨.error (.http 400 inputDetail), [], []⟩
    | some (doc, md) =>
      match chunk_text doc 1000 200 (doc.length + 1) with
      | none => none
      | some chunks =>
        let built := buildPoints embed idGen md chunks.length 0 chunks
        match built.2 with
        | .error _ => some ⟨.error .upstream, built.1, []⟩
        | .ok pts =>
          some ⟨.ok ⟨"success", chunks.length⟩, built.1,
            if pts.isEmpty then [] else [(collection, pts)]⟩
  else some ⟨.error (.http 400 collectionsDetail), [], []⟩

/-! ### Lemmas about the chunking loop -/

/-- When `chunk_overlap < chunk_size`, fuel `len(text) - start` suffices for
the chunking loop to run to completion. -/
theorem chunkSpansLoop_isSome (text : List Char) (cs co : Int) (hco : co < cs) :
    ∀ (fuel : Nat) (start : Int) (acc : List (Int × Int)),
      (text.length : Int) ≤ start + fuel →
      (chunkSpansLoop text cs co fuel start acc).isSome := by
  intro fuel
  induction fuel with
  | zero =>
    intro start acc h
    simp only [chunkSpansLoop]
    rw [if_neg (by omega)]
    simp
  | succ n ih =>
    intro start acc h
    simp only [chunkSpansLoop]
    split
    · apply ih
      have h1 : start + cs - co ≤ nextStart text cs co start :=
        le_max_left _ _
      push_cast at h ⊢
      omega
    · simp

/-- Every span already accumulated appears in the final span list. -/
theorem chunkSpansLoop_mem_acc (text : List Char) (cs co : Int) :
    ∀ (fuel : Nat) (start : Int) (acc l : List (Int × Int)),
      chunkSpansLoop text cs co fuel start acc = some l →
      ∀ p ∈ acc, p ∈ l := by
  intro fuel
  induction fuel with
  | zero =>
    intro start acc l h p hp
    simp only [chunkSpansLoop] at h
    split at h
    · cases h
    · injection h with h'
      subst h'
      exact List.mem_reverse.mpr hp
  | succ n ih =>
    intro start acc l h p hp
    simp only [chunkSpansLoop] at h
    split at h
    · exact ih _ _ _ h p (List.mem_cons_of_mem _ hp)
    · injection h with h'
      subst h'
      exact List.mem_reverse.mpr hp

/-- `rfind` misses every pattern containing a character absent from the
haystack. -/
theorem rfindSub_eq_none (pat s : List Char) (c : Char) (hc : c ∈ pat)
    (hs : c ∉ s) : rfindSub pat s = none := by
  unfold rfindSub
  rw [List.filter_eq_nil_iff.mpr, List.getLast?_nil]
  intro i _
  simp only [beq_iff_eq]
  intro hpre
  exact hs (List.drop_subset _ _ (List.take_subset _ _ (hpre ▸ hc)))

/-- A Python slice of the text only contains characters of the text. -/
theorem pySlice_subset (text : List Char) (a b : Int) : pySlice text a b ⊆ text :=
  fun _ hx => List.take_subset _ _ (List.drop_subset _ _ hx)

/-- On a text containing no newline and no space, no break marker is ever
found, so every window keeps its raw end boundary. -/
theorem curEnd_noBreak (text : List Char) (cs : Int) (start : Int)
    (hnb : ∀ c ∈ text, c ≠ '\n' ∧ c ≠ ' ') :
    curEnd text cs start = min (start + cs) (text.length : Int) := by
  have hn : '\n' ∉ pySlice text start (min (start + cs) (text.length : Int)) := by
    intro hmem
    exact (hnb _ (pySlice_subset _ _ _ hmem)).1 rfl
  have hsp : ' ' ∉ pySlice text start (min (start + cs) (text.length : Int)) := by
    intro hmem
    exact (hnb _ (pySlice_subset _ _ _ hmem)).2 rfl
  unfold curEnd
  rw [show breakChars.findSome?
      (fun p => (rfindSub p (pySlice text start (min (start + cs) (text.length : Int)))).map
        (· + p.length)) = none from ?_]
  · split <;> rfl
  · simp only [breakChars, List.findSome?_cons, List.findSome?_nil]
    rw [rfindSub_eq_none _ _ '\n' (by simp) hn,
      rfindSub_eq_none _ _ '\n' (by simp) hn,
      rfindSub_eq_none _ _ ' ' (by simp) hsp,
      rfindSub_eq_none _ _ ' ' (by simp) hsp]
    rfl

/-- On a break-free text with `0 ≤ chunk_overlap`, the loop covers every
position from the cursor to the end of the text. -/
theorem chunkSpansLoop_covers (text : List Char) (cs co : Int)
    (hnb : ∀ c ∈ text, c ≠ '\n' ∧ c ≠ ' ') (hco : 0 ≤ co) :
    ∀ (fuel : Nat) (start : Int) (acc l : List (Int × Int)),
      chunkSpansLoop text cs co fuel start acc = some l →
      ∀ j : Int, start ≤ j → j < (text.length : Int) →
        ∃ p ∈ l, p.1 ≤ j ∧ j < p.2 := by
  intro fuel
  induction fuel with
  | zero =>
    intro start acc l h j hj1 hj2
    simp only [chunkSpansLoop] at h
    split at h
    · cases h
    · omega
  | succ n ih =>
    intro start acc l h j hj1 hj2
    simp only [chunkSpansLoop] at h
    split at h
    · by_cases hj : j < curEnd text cs start
      · exact ⟨(start, curEnd text cs start),
          chunkSpansLoop_mem_acc _ _ _ _ _ _ _ h _ (List.mem_cons_self _ _), hj1, hj⟩
      · have hce := curEnd_noBreak text cs start hnb
        apply ih _ _ _ h j _ hj2
        rw [nextStart, hce]
        rw [hce] at hj
        omega
    · omega

/-- Every adjacent pair of spans produced by the loop satisfies the overlap
bound `next.start ≥ prev.end - chunk_overlap`, for any parameters. -/
theorem chunkSpansLoop_chain (text : List Char) (cs co : Int) :
    ∀ (fuel : Nat) (start : Int) (acc l : List (Int × Int)),
      chunkSpansLoop text cs co fuel start acc = some l →
      (∀ p ∈ acc.head?, p.2 - co ≤ start) →
      List.Chain' (fun a b => b.2 - co ≤ a.1) acc →
      List.Chain' (fun a b => a.2 - co ≤ b.1) l := by
  intro fuel
  induction fuel with
  | zero =>
    intro start acc l h hh hc
    simp only [chunkSpansLoop] at h
    split at h
    · cases h
    · injection h with h'
      subst h'
      exact List.chain'_reverse.mpr hc
  | succ n ih =>
    intro start acc l h hh hc
    simp only [chunkSpansLoop] at h
    split at h
    · apply ih _ _ _ h
      · intro p hp
        simp only [List.head?_cons, Option.mem_def, Option.some.injEq] at hp
        subst hp
        exact le_max_right _ _
      · rw [List.chain'_cons']
        exact ⟨fun y hy => hh y hy, hc⟩
    · injection h with h'
      subst h'
      exact List.chain'_reverse.mpr hc

/-! ### The chunking claims -/

/-- C2 (amended): for a text longer than `chunk_size` with
`0 ≤ chunk_overlap < chunk_size`, `chunk_text` terminates within `len(text)`
loop iterations; if the text additionally contains no natural-break marker,
every character position is contained in at least one chunk.  (With break
markers, the cursor update may jump past a shortened chunk's end and skip
characters — see the counterexample.) -/
theorem chunk_text_coverage (text : List Char) (cs co : Int)
    (hlen : cs < (text.length : Int)) (hco0 : 0 ≤ co) (hco : co < cs) :
    ∃ l, chunkSpans text cs co text.length = some l ∧
      chunk_text text cs co text.length = some (l.map (fun p => pySlice text p.1 p.2)) ∧
      ((∀ c ∈ text, c ≠ '\n' ∧ c ≠ ' ') →
        ∀ j : Int, 0 ≤ j → j < (text.length : Int) → ∃ p ∈ l, p.1 ≤ j ∧ j < p.2) := by
  have hs := chunkSpansLoop_isSome text cs co hco text.length 0 [] (by omega)
  obtain ⟨l, hl⟩ := Option.isSome_iff_exists.mp hs
  refine ⟨l, hl, ?_, ?_⟩
  · unfold chunk_text
    rw [if_neg (not_le.mpr hlen)]
    rw [show chunkSpans text cs co text.length = some l from hl]
    rfl
  · intro hnb j hj0 hjl
    exact chunkSpansLoop_covers text cs co hnb hco0 text.length 0 [] l hl j hj0 hjl

/-- Witness for C2 on the break-free text "xyzw" with size 2 and overlap 1. -/
theorem chunk_text_coverage_witness :
    ∃ l, chunkSpans "xyzw".toList 2 1 "xyzw".toList.length = some l ∧
      chunk_text "xyzw".toList 2 1 "xyzw".toList.length
        = some (l.map (fun p => pySlice "xyzw".toList p.1 p.2)) ∧
      ((∀ c ∈ "xyzw".toList, c ≠ '\n' ∧ c ≠ ' ') →
        ∀ j : Int, 0 ≤ j → j < ("xyzw".toList.length : Int) →
          ∃ p ∈ l, p.1 ≤ j ∧ j < p.2) :=
  chunk_text_coverage "xyzw".toList 2 1 (by decide) (by decide) (by decide)

/-- C2 counterexample: on "a. bcdefgh" with `chunk_size = 6 > 2 =
chunk_overlap`, the period-space break shortens the first chunk to "a. " and
the cursor then jumps to 4, so position 3 (the character 'b') lies in no
chunk: the coverage half of the claim is false. -/
theorem chunk_text_coverage_cex :
    chunkSpans "a. bcdefgh".toList 6 2 "a. bcdefgh".toList.length
        = some [(0, 3), (4, 10), (8, 10)] ∧
      chunk_text "a. bcdefgh".toList 6 2 "a. bcdefgh".toList.length
        = some ["a. ".toList, "cdefgh".toList, "gh".toList] ∧
      coveredB [(0, 3), (4, 10), (8, 10)] 3 = false ∧
      (6 : Int) < ("a. bcdefgh".toList.length : Int) ∧ (2 : Int) < 6 := by
  decide

/-- C3 (amended): whenever `chunk_overlap < chunk_size` the cursor update
makes strict forward progress on every loop iteration and `chunk_text`
terminates; when `chunk_overlap ≥ chunk_size` the cursor can stall and the
loop never finishes (see the counterexample). -/
theorem chunk_text_progress (text : List Char) (cs co : Int) (start : Int)
    (h : co < cs) :
    start < nextStart text cs co start ∧
      (chunkSpans text cs co text.length).isSome := by
  constructor
  · have h1 : start + cs - co ≤ nextStart text cs co start := le_max_left _ _
    omega
  · exact chunkSpansLoop_isSome text cs co h text.length 0 [] (by omega)

/-- Witness for C3 at text "abcd", size 2, overlap 1, cursor 0. -/
theorem chunk_text_progress_witness :
    (0 : Int) < nextStart "abcd".toList 2 1 0 ∧
      (chunkSpans "abcd".toList 2 1 "abcd".toList.length).isSome :=
  chunk_text_progress "abcd".toList 2 1 0 (by decide)

/-- C3 counterexample: on text "ab" with `chunk_size = chunk_overlap = 1`
the loop is entered (0 < 2) and the cursor update returns 0 again — no
forward progress, so the Python loop repeats the same state forever (with
fuel 5 the loop model is still unfinished). -/
theorem chunk_text_progress_cex :
    nextStart "ab".toList 1 1 0 = 0 ∧
      chunkSpans "ab".toList 1 1 5 = none ∧
      (0 : Int) < ("ab".toList.length : Int) := by
  decide

/-- C4 (amended): each pair of adjacent chunks overlaps by at most
`chunk_overlap` characters — the next chunk never starts more than
`chunk_overlap` before the previous chunk's end; but it may start after the
previous chunk's end (a gap, negative overlap), so the "at least 0" half of
the claim is false (see the counterexample). -/
theorem chunk_overlap_bound (text : List Char) (cs co : Int) (fuel : Nat)
    (l : List (Int × Int)) (h : chunkSpans text cs co fuel = some l) :
    List.Chain' (fun a b => a.2 - co ≤ b.1) l :=
  chunkSpansLoop_chain text cs co fuel 0 [] l h (by intro p hp; cases hp)
    List.chain'_nil

/-- Witness for C4 on the spans of "a. bcdefgh" with size 6 and overlap 2. -/
theorem chunk_overlap_bound_witness :
    List.Chain' (fun a b : Int × Int => a.2 - 2 ≤ b.1)
      [((0 : Int), (3 : Int)), (4, 10), (8, 10)] :=
  chunk_overlap_bound "a. bcdefgh".toList 6 2 "a. bcdefgh".toList.length _ (by decide)

/-- C4 counterexample: in the run on "a. bcdefgh" with size 6 and overlap 2
the second chunk starts at 4, strictly after the first chunk's end 3, so the
overlap of the adjacent pair is negative: "the next chunk never starts after
the previous chunk's end" is false. -/
theorem chunk_overlap_bound_cex :
    chunkSpans "a. bcdefgh".toList 6 2 "a. bcdefgh".toList.length
        = some [(0, 3), (4, 10), (8, 10)] ∧
      ¬ ((4 : Int) ≤ 3) := by
  decide

/-! ### Lemmas about the query pipeline -/

/-- The three possible shapes of the tail of the query handler: the fixed
no-information answer without sources, a chat failure, or a chat answer
carrying the sorted-truncated matches as sources. -/
theorem respondPhase_cases (chat : List Msg → Except Unit String) (q : String)
    (topk : Int) (g : Bool) (calls : List (String × Int)) (hits : List Hit) :
    respondPhase chat q topk g calls hits = ⟨.ok ⟨noInfoMsg, none⟩, calls, none⟩ ∨
      (∃ m, respondPhase chat q topk g calls hits = ⟨.error (), calls, some m⟩) ∨
      ∃ ans m, respondPhase chat q topk g calls hits
        = ⟨.ok ⟨ans, some (pyTakeTo (List.insertionSort hitLE hits) topk)⟩, calls, some m⟩ := by
  unfold respondPhase
  split
  · exact Or.inl rfl
  · cases hc : chat (messagesOf q (contextOf (pyTakeTo (List.insertionSort hitLE hits) topk))) with
    | error e => exact Or.inr (Or.inl ⟨_, rfl⟩)
    | ok ans => exact Or.inr (Or.inr ⟨ans, _, rfl⟩)

/-- The search-call log is passed through the tail of the handler unchanged. -/
theorem respondPhase_calls (chat : List Msg → Except Unit String) (q : String)
    (topk : Int) (g : Bool) (calls : List (String × Int)) (hits : List Hit) :
    (respondPhase chat q topk g calls hits).searchCalls = calls := by
  rcases respondPhase_cases chat q topk g calls hits with h | ⟨m, h⟩ | ⟨ans, m, h⟩ <;>
    rw [h]

/-- When the tail of the handler succeeds with a sources field, that field is
exactly the sorted and truncated match list. -/
theorem respondPhase_sources (chat : List Msg → Except Unit String) (q : String)
    (topk : Int) (g : Bool) (calls : List (String × Int)) (hits : List Hit)
    (resp : QueryResponse) (l : List Hit)
    (hres : (respondPhase chat q topk g calls hits).result = .ok resp)
    (hsrc : resp.sources = some l) :
    l = pyTakeTo (List.insertionSort hitLE hits) topk := by
  rcases respondPhase_cases chat q topk g calls hits with h | ⟨m, h⟩ | ⟨ans, m, h⟩ <;>
      rw [h] at hres
  · injection hres with h'
    subst h'
    cases hsrc
  · cases hres
  · injection hres with h'
    subst h'
    injection hsrc with h''
    exact h''.symm

/-- When the chat provider was called and the handler succeeded, the response
carries a sources field. -/
theorem respondPhase_chat_sources (chat : List Msg → Except Unit String) (q : String)
    (topk : Int) (g : Bool) (calls : List (String × Int)) (hits : List Hit)
    (resp : QueryResponse)
    (hcm : (respondPhase chat q topk g calls hits).chatMessages.isSome)
    (hres : (respondPhase chat q topk g calls hits).result = .ok resp) :
    resp.sources.isSome := by
  rcases respondPhase_cases chat q topk g calls hits with h | ⟨m, h⟩ | ⟨ans, m, h⟩ <;>
      rw [h] at hcm hres
  · cases hcm
  · cases hres
  · injection hres with h'
    subst h'
    rfl

/-- Stepping lemma: once the query embedding succeeds, the handler is the
dispatch on the gathered matches. -/
theorem queryModel_ok {V : Type} (embed : String → Except Unit V)
    (search : String → V → Int → Except Unit (List RawHit))
    (chat : List Msg → Except Unit String) (req : QueryRequest) (v : V)
    (hemb : embed req.query = .ok v) :
    queryModel embed search chat req =
      match (gatherPhase search v req.top_k req.collection).2 with
      | .error _ => ⟨.error (), (gatherPhase search v req.top_k req.collection).1, none⟩
      | .ok hits =>
        respondPhase chat req.query req.top_k (decide (req.collection = some "global"))
          (gatherPhase search v req.top_k req.collection).1 hits := by
  unfold queryModel
  rw [hemb]

/-- Python slice `l[:k]` never keeps more than `k ≥ 0` elements. -/
theorem pyTakeTo_length_le {α : Type} (l : List α) (k : Int) (hk : 0 ≤ k) :
    ((pyTakeTo l k).length : Int) ≤ k := by
  unfold pyTakeTo pyClamp
  rw [if_neg (not_lt.mpr hk)]
  rw [List.length_take]
  have h1 : (k.toNat : Int) = k := Int.toNat_of_nonneg hk
  push_cast
  omega

/-! ### The query claims -/

/-- C10: the query embedding is requested before the selector is inspected,
so an embedding-provider failure fails the whole query — no search call and
no chat call happen — for every selector, including "global" where the
embedding would never be used. -/
theorem query_embed_failure_propagates {V : Type} (embed : String → Except Unit V)
    (search : String → V → Int → Except Unit (List RawHit))
    (chat : List Msg → Except Unit String) (req : QueryRequest)
    (he : embed req.query = .error ()) :
    queryModel embed search chat req = ⟨.error (), [], none⟩ := by
  unfold queryModel
  rw [he]

/-- Witness for C10 with selector "global". -/
theorem query_embed_failure_propagates_witness :
    queryModel (V := Nat) (fun _ => .error ()) (fun _ _ _ => .ok []) (fun _ => .ok "a")
        ⟨"q", some "global", 5⟩
      = ⟨.error (), [], none⟩ :=
  query_embed_failure_propagates _ _ _ _ rfl

/-- C5: a truthy selector that is neither an enumerated collection nor
"global" behaves exactly as an absent selector — the fan-out path — and is
not rejected. -/
theorem query_unrecognized_fallback {V : Type} (embed : String → Except Unit V)
    (search : String → V → Int → Except Unit (List RawHit))
    (chat : List Msg → Except Unit String) (q : String) (topk : Int) (s : String)
    (_h1 : s ≠ "") (h2 : s ∉ COLLECTIONS) (h3 : s ≠ "global") :
    queryModel embed search chat ⟨q, some s, topk⟩
      = queryModel embed search chat ⟨q, none, topk⟩ := by
  unfold queryModel
  cases hemb : embed q with
  | error e => rfl
  | ok v =>
    have hg : gatherPhase search v topk (some s) = gatherPhase search v topk none := by
      simp only [gatherPhase]
      rw [if_neg (by tauto), if_neg h3]
    have hd : (decide ((some s : Option String) = some "global")) = false :=
      decide_eq_false (by simp [h3])
    simp only [hemb, hg, hd]
    rw [show (decide ((none : Option String) = some "global")) = false from rfl]

/-- Witness for C5 at the unrecognized selector "mystery". -/
theorem query_unrecognized_fallback_witness :
    queryModel (V := Nat) (fun _ => .ok 0) (fun _ _ _ => .ok []) (fun _ => .ok "a")
        ⟨"q", some "mystery", 5⟩
      = queryModel (V := Nat) (fun _ => .ok 0) (fun _ _ _ => .ok []) (fun _ => .ok "a")
        ⟨"q", none, 5⟩ :=
  query_unrecognized_fallback _ _ _ "q" 5 "mystery" (by decide) (by decide) (by decide)

/-- C6: with no selector, every enumerated collection is searched with limit
`max(1, top_k // len(COLLECTIONS))` (Python floor division), and a collection
whose search raises behaves exactly as one returning no results: it is
excluded and the query completes over the remaining collections. -/
theorem query_fanout_isolated {V : Type} (embed : String → Except Unit V)
    (search : String → V → Int → Except Unit (List RawHit))
    (chat : List Msg → Except Unit String) (q : String) (topk : Int) (c0 : String)
    (v : V) (he : embed q = .ok v) :
    (queryModel embed search chat ⟨q, none, topk⟩).searchCalls
        = COLLECTIONS.map (fun c => (c, max 1 (Int.fdiv topk (COLLECTIONS.length : Int)))) ∧
      queryModel embed (fun c w L => if c = c0 then .error () else search c w L) chat
          ⟨q, none, topk⟩
        = queryModel embed (fun c w L => if c = c0 then .ok [] else search c w L) chat
          ⟨q, none, topk⟩ := by
  constructor
  · rw [queryModel_ok embed search chat ⟨q, none, topk⟩ v he]
    exact respondPhase_calls _ _ _ _ _ _
  · have hper : ∀ c,
        perColl (fun c w L => if c = c0 then .error () else search c w L) v
            (fanoutLimit topk) c
          = perColl (fun c w L => if c = c0 then .ok [] else search c w L) v
            (fanoutLimit topk) c := by
      intro c
      by_cases hc : c = c0 <;> simp [perColl, hc]
    have hfan : fanout (fun c w L => if c = c0 then .error () else search c w L) v topk
        = fanout (fun c w L => if c = c0 then .ok [] else search c w L) v topk := by
      unfold fanout
      rw [List.map_congr_left (fun c _ => hper c)]
    rw [queryModel_ok embed _ chat ⟨q, none, topk⟩ v he,
      queryModel_ok embed _ chat ⟨q, none, topk⟩ v he]
    rw [show gatherPhase (fun c w L => if c = c0 then .error () else search c w L) v topk none
        = fanout (fun c w L => if c = c0 then .error () else search c w L) v topk from rfl,
      show gatherPhase (fun c w L => if c = c0 then .ok [] else search c w L) v topk none
        = fanout (fun c w L => if c = c0 then .ok [] else search c w L) v topk from rfl,
      hfan]

/-- C7: whenever the handler succeeds with a sources field, its entries are
sorted by score descending (`hitLE a b` is `b.score ≤ a.score`) and there
are at most `top_k` of them; the model is a pure function, so the order
among equal scores is deterministic by construction (and stable, matching
Python's stable sort). -/
theorem query_sorted_truncated {V : Type} (embed : String → Except Unit V)
    (search : String → V → Int → Except Unit (List RawHit))
    (chat : List Msg → Except Unit String) (req : QueryRequest)
    (resp : QueryResponse) (l : List Hit) (htop : 0 ≤ req.top_k)
    (hres : (queryModel embed search chat req).result = .ok resp)
    (hsrc : resp.sources = some l) :
    List.Pairwise hitLE l ∧ (l.length : Int) ≤ req.top_k := by
  cases hemb : embed req.query with
  | error e =>
    unfold queryModel at hres
    rw [hemb] at hres
    simp at hres
  | ok v =>
    rw [queryModel_ok embed search chat req v hemb] at hres
    cases hst : (gatherPhase search v req.top_k req.collection).2 with
    | error e =>
      rw [hst] at hres
      simp at hres
    | ok hits =>
      rw [hst] at hres
      have hl := respondPhase_sources chat req.query req.top_k
        (decide (req.collection = some "global"))
        (gatherPhase search v req.top_k req.collection).1 hits resp l hres hsrc
      subst hl
      exact ⟨List.Pairwise.sublist (List.take_sublist _ _)
          (List.sorted_insertionSort hitLE hits),
        pyTakeTo_length_le _ _ htop⟩

/-- Witness for C6: embedding succeeds, collection "docs" fails. -/
theorem query_fanout_isolated_witness :
    (queryModel (V := Nat) (fun _ => .ok 0) (fun _ _ _ => .ok []) (fun _ => .ok "a")
          ⟨"q", none, 5⟩).searchCalls
        = COLLECTIONS.map (fun c => (c, max 1 (Int.fdiv 5 (COLLECTIONS.length : Int)))) ∧
      queryModel (V := Nat) (fun _ => .ok 0)
          (fun c w L => if c = "docs" then .error () else (fun _ _ _ => .ok []) c w L)
          (fun _ => .ok "a") ⟨"q", none, 5⟩
        = queryModel (V := Nat) (fun _ => .ok 0)
          (fun c w L => if c = "docs" then .ok [] else (fun _ _ _ => .ok []) c w L)
          (fun _ => .ok "a") ⟨"q", none, 5⟩ :=
  query_fanout_isolated _ _ _ "q" 5 "docs" 0 rfl

/-- Witness for C7 on a single-collection query returning one match. -/
theorem query_sorted_truncated_witness :
    List.Pairwise hitLE [⟨PVal.pstr "hello", 2, "docs", []⟩] ∧
      (([⟨PVal.pstr "hello", 2, "docs", []⟩] : List Hit).length : Int) ≤ (5 : Int) :=
  query_sorted_truncated (V := Nat) (fun _ => .ok 0)
    (fun _ _ _ => .ok [⟨2, [("text", PVal.pstr "hello")]⟩]) (fun _ => .ok "a")
    ⟨"q", some "docs", 5⟩ ⟨"a", some [⟨PVal.pstr "hello", 2, "docs", []⟩]⟩
    [⟨PVal.pstr "hello", 2, "docs", []⟩] (by decide) (by decide) rfl

/-- C1 (amended): a query with selector "global" whose embedding and chat
calls succeed returns a response that DOES contain a sources field, equal to
the empty list (the chat branch always attaches the truncated match list);
and whenever the chat provider was called and the handler succeeded, the
response contains a sources field.  The sources field is absent only on the
fixed no-information fallback. -/
theorem query_global_sources {V : Type} (embed : String → Except Unit V)
    (search : String → V → Int → Except Unit (List RawHit))
    (chat : List Msg → Except Unit String) (req : QueryRequest) :
    (∀ (v : V) (ans : String), req.collection = some "global" →
        embed req.query = .ok v →
        chat [⟨"system", genSystemMsg⟩, ⟨"user", req.query⟩] = .ok ans →
        (queryModel embed search chat req).result = .ok ⟨ans, some []⟩) ∧
      (∀ resp : QueryResponse, (queryModel embed search chat req).chatMessages.isSome →
        (queryModel embed search chat req).result = .ok resp →
        resp.sources.isSome) := by
  constructor
  · intro v ans hcol hemb hchat
    rw [queryModel_ok embed search chat req v hemb, hcol]
    have hg : gatherPhase search v req.top_k (some "global") = ([], .ok ([] : List Hit)) := by
      simp only [gatherPhase]
      rw [if_neg (by simp [COLLECTIONS])]
      simp
    rw [hg]
    show (respondPhase chat req.query req.top_k true [] []).result = .ok ⟨ans, some []⟩
    have ht : pyTakeTo (List.insertionSort hitLE ([] : List Hit)) req.top_k = [] := by
      simp [pyTakeTo, List.insertionSort]
    unfold respondPhase
    rw [ht, if_neg (by simp)]
    rw [show messagesOf req.query (contextOf []) =
        [⟨"system", genSystemMsg⟩, ⟨"user", req.query⟩] from rfl]
    rw [hchat]
  · intro resp hcm hres
    cases hemb : embed req.query with
    | error e =>
      unfold queryModel at hcm
      rw [hemb] at hcm
      simp at hcm
    | ok v =>
      rw [queryModel_ok embed search chat req v hemb] at hcm hres
      cases hst : (gatherPhase search v req.top_k req.collection).2 with
      | error e =>
        rw [hst] at hcm
        simp at hcm
      | ok hits =>
        rw [hst] at hcm hres
        exact respondPhase_chat_sources chat req.query req.top_k
          (decide (req.collection = some "global"))
          (gatherPhase search v req.top_k req.collection).1 hits resp hcm hres

/-- Witness for C1 through its global half. -/
theorem query_global_sources_witness :
    (queryModel (V := Nat) (fun _ => .ok 0) (fun _ _ _ => .ok []) (fun _ => .ok "a")
        ⟨"q", some "global", 5⟩).result = .ok ⟨"a", some []⟩ :=
  (query_global_sources (V := Nat) (fun _ => .ok 0) (fun _ _ _ => .ok [])
    (fun _ => .ok "a") ⟨"q", some "global", 5⟩).1 0 "a" rfl rfl rfl

/-- C1 counterexample: a concrete query with selector "global" (embedding and
chat both succeed) yields a response whose sources field is present — it is
`some []`, not absent — so "the response contains no sources field" is false
on the code. -/
theorem query_global_sources_cex :
    (queryModel (V := Nat) (fun _ => .ok 0) (fun _ _ _ => .ok []) (fun _ => .ok "ans")
        ⟨"q", some "global", 5⟩).result = .ok ⟨"ans", some []⟩ ∧
      (some ([] : List Hit)).isSome = true := by
  exact ⟨rfl, rfl⟩

/-! ### Lemmas about the ingest pipeline -/

/-- Association-list lookup across a concatenation: the later block wins. -/
theorem dget_append (a b : List (String × PVal)) (k : String) :
    dget (a ++ b) k = match dget b k with
      | some v => some v
      | none => dget a k := by
  induction a with
  | nil =>
    cases hb : dget b k <;> simp [dget, hb]
  | cons p ps ih =>
    cases hb : dget b k <;> simp [dget, ih, hb]

/-- The stored payload of a chunk resolves every key by later-write-wins:
a caller-supplied binding overrides the built-in `text` / `chunk_index` /
`total_chunks` entries. -/
theorem dget_mkChunkPayload (chunk : List Char) (i total : Nat)
    (md : List (String × PVal)) (k : String) :
    dget (mkChunkPayload chunk i total md) k
      = match dget md k with
        | some v => some v
        | none =>
          if k = "text" then some (PVal.pstr (String.mk chunk))
          else if k = "chunk_index" then some (PVal.pnat i)
          else if k = "total_chunks" then some (PVal.pnat total) else none := by
  rw [mkChunkPayload, dget_append]
  cases hb : dget md k with
  | some v => rfl
  | none =>
    by_cases h1 : k = "text"
    · subst h1; simp [dget]
    · by_cases h2 : k = "chunk_index"
      · subst h2; simp [dget]
      · by_cases h3 : k = "total_chunks"
        · subst h3; simp [dget]
        · simp [dget, h1, h2, h3, Ne.symm h1, Ne.symm h2, Ne.symm h3]

/-- The points the embedding loop produces when every embedding succeeds. -/
def mkPoints {V : Type} (ef : List Char → V) (idGen : Nat → String)
    (md : List (String × PVal)) (total : Nat) : Nat → List (List Char) → List (IngPoint V)
  | _, [] => []
  | i, c :: cs =>
    ⟨idGen i, ef c, mkChunkPayload c i total md⟩ :: mkPoints ef idGen md total (i + 1) cs

/-- With an always-succeeding embedding provider, the loop embeds every chunk
in order and produces `mkPoints`. -/
theorem buildPoints_ok {V : Type} (ef : List Char → V) (idGen : Nat → String)
    (md : List (String × PVal)) (total : Nat) :
    ∀ (cs : List (List Char)) (i : Nat),
      buildPoints (fun c => .ok (ef c)) idGen md total i cs
        = (cs, .ok (mkPoints ef idGen md total i cs)) := by
  intro cs
  induction cs with
  | nil => intro i; rfl
  | cons c rest ih =>
    intro i
    simp only [buildPoints, ih, mkPoints]
    rfl

/-- Index-wise description of the points: the `j`-th point carries the `j`-th
chunk, its index, and the merged payload. -/
theorem mkPoints_getElem {V : Type} (ef : List Char → V) (idGen : Nat → String)
    (md : List (String × PVal)) (total : Nat) :
    ∀ (cs : List (List Char)) (i j : Nat),
      (mkPoints ef idGen md total i cs)[j]?
        = (cs[j]?).map (fun c =>
            (⟨idGen (i + j), ef c, mkChunkPayload c (i + j) total md⟩ : IngPoint V)) := by
  intro cs
  induction cs with
  | nil => intro i j; simp [mkPoints]
  | cons c rest ih =>
    intro i j
    cases j with
    | zero => simp [mkPoints]
    | succ n =>
      simp only [mkPoints, List.getElem?_cons_succ, ih (i + 1) n]
      rw [show i + 1 + n = i + (n + 1) by omega]

/-- A run of the chunking loop on a nonempty text emits at least one span. -/
theorem chunkSpans_ne_nil (text : List Char) (cs co : Int) (fuel : Nat)
    (l : List (Int × Int)) (h : chunkSpans text cs co fuel = some l)
    (hlen : 0 < (text.length : Int)) : l ≠ [] := by
  cases fuel with
  | zero =>
    unfold chunkSpans chunkSpansLoop at h
    rw [if_pos hlen] at h
    cases h
  | succ n =>
    unfold chunkSpans chunkSpansLoop at h
    rw [if_pos hlen] at h
    intro hnil
    subst hnil
    exact absurd (chunkSpansLoop_mem_acc text cs co n _ _ _ h
      (0, curEnd text cs 0) (List.mem_cons_self _ _)) (List.not_mem_nil _)

/-- `chunk_text` with the default parameters always returns, with a nonempty
chunk list on a nonempty document. -/
theorem chunk_text_default_total (t : List Char) (htne : t ≠ []) :
    ∃ chunks, chunk_text t 1000 200 (t.length + 1) = some chunks ∧ chunks ≠ [] := by
  have hpos : 0 < (t.length : Int) := by
    cases t with
    | nil => exact absurd rfl htne
    | cons c cs => simp
  unfold chunk_text
  split
  · exact ⟨[t], rfl, by simp⟩
  · obtain ⟨l, hl⟩ := Option.isSome_iff_exists.mp
      (chunkSpansLoop_isSome t 1000 200 (by norm_num) (t.length + 1) 0 [] (by omega))
    refine ⟨l.map (fun p => pySlice t p.1 p.2), ?_, ?_⟩
    · rw [show chunkSpans t 1000 200 (t.length + 1) = some l from hl]
      rfl
    · have := chunkSpans_ne_nil t 1000 200 (t.length + 1) l hl hpos
      simp [this]

/-! ### The ingest claims -/

/-- C8: an ingest request with a collection outside the enumerated set fails
with the 400 error naming the constraint; one with a valid collection but
neither a file nor (truthy) inline text fails with the 400 input-validation
error; in both cases no embedding call and no upsert happens. -/
theorem ingest_validation {V : Type} (embed : List Char → Except Unit V)
    (idGen : Nat → String) (collection : String) (file : Option FileUpload)
    (text : Option (List Char)) (md : List (String × PVal)) :
    (collection ∉ COLLECTIONS →
        ingestModel embed idGen collection file text md
          = some ⟨.error (.http 400 collectionsDetail), [], []⟩) ∧
      (collection ∈ COLLECTIONS → file = none → (text = none ∨ text = some []) →
        ingestModel embed idGen collection file text md
          = some ⟨.error (.http 400 inputDetail), [], []⟩) := by
  constructor
  · intro h
    unfold ingestModel
    rw [if_neg h]
  · intro hc hf ht
    unfold ingestModel
    rw [if_pos hc]
    subst hf
    rcases ht with h | h <;> subst h <;> rfl

/-- Witness for C8: both rejection paths at concrete requests. -/
theorem ingest_validation_witness :
    ingestModel (V := Nat) (fun _ => .ok 0) (fun _ => "id") "nope" none none []
        = some ⟨.error (.http 400 collectionsDetail), [], []⟩ ∧
      ingestModel (V := Nat) (fun _ => .ok 0) (fun _ => "id") "docs" none none []
        = some ⟨.error (.http 400 inputDetail), [], []⟩ :=
  ⟨(ingest_validation (V := Nat) (fun _ => .ok 0) (fun _ => "id") "nope" none none []).1
      (by decide),
    (ingest_validation (V := Nat) (fun _ => .ok 0) (fun _ => "id") "docs" none none []).2
      (by decide) rfl (Or.inl rfl)⟩

/-- C9: the payload stored for every ingested chunk is the later-write-wins
union of the built-in entries (`text`, zero-based `chunk_index`,
`total_chunks`) with the caller metadata — a caller binding of a reserved key
overrides the built-in value; and on the inline-text path the handler upserts
exactly one batch whose `j`-th point carries the `j`-th chunk with that
payload. -/
theorem ingest_payload_merge {V : Type} (ef : List Char → V) (idGen : Nat → String)
    (collection : String) (t : List Char) (md : List (String × PVal))
    (hc : collection ∈ COLLECTIONS) (ht : t ≠ []) :
    (∀ (chunk : List Char) (i n : Nat) (k : String),
        dget (mkChunkPayload chunk i n md) k
          = match dget md k with
            | some v => some v
            | none =>
              if k = "text" then some (PVal.pstr (String.mk chunk))
              else if k = "chunk_index" then some (PVal.pnat i)
              else if k = "total_chunks" then some (PVal.pnat n) else none) ∧
      ∃ chunks, chunk_text t 1000 200 (t.length + 1) = some chunks ∧
        ingestModel (fun c => .ok (ef c)) idGen collection none (some t) md
          = some ⟨.ok ⟨"success", chunks.length⟩, chunks,
              [(collection, mkPoints ef idGen md chunks.length 0 chunks)]⟩ ∧
        (∀ j : Nat, (mkPoints ef idGen md chunks.length 0 chunks)[j]?
          = (chunks[j]?).map (fun c =>
              ⟨idGen j, ef c, mkChunkPayload c j chunks.length md⟩)) := by
  refine ⟨fun chunk i n k => dget_mkChunkPayload chunk i n md k, ?_⟩
  obtain ⟨chunks, hchunks, hcne⟩ := chunk_text_default_total t ht
  refine ⟨chunks, hchunks, ?_, ?_⟩
  · unfold ingestModel
    rw [if_pos hc]
    simp only [if_neg ht]
    rw [hchunks]
    simp only [buildPoints_ok]
    obtain ⟨c, rest, rfl⟩ := List.exists_cons_of_ne_nil hcne
    rfl
  · intro j
    simpa using mkPoints_getElem ef idGen md chunks.length chunks 0 j

/-- Witness for C9: ingesting "hi" into "docs" with a caller metadata entry
reusing the reserved key "text" — the stored payload resolves "text" to the
caller's value, and one batch with one point is upserted. -/
theorem ingest_payload_merge_witness :
    dget (mkChunkPayload "hi".toList 0 1 [("text", PVal.pstr "x")]) "text"
        = some (PVal.pstr "x") ∧
      ingestModel (V := Nat) (fun c => .ok c.length) (fun i => toString i) "docs" none
          (some "hi".toList) [("text", PVal.pstr "x")]
        = some ⟨.ok ⟨"success", 1⟩, ["hi".toList],
            [("docs", mkPoints (fun c : List Char => c.length) (fun i => toString i)
              [("text", PVal.pstr "x")] 1 0 ["hi".toList])]⟩ := by
  have h := ingest_payload_merge (V := Nat) (fun c => c.length) (fun i => toString i)
    "docs" "hi".toList [("text", PVal.pstr "x")] (by decide) (by decide)
  constructor
  · rw [h.1 "hi".toList 0 1 "text"]
    rfl
  · obtain ⟨chunks, hck, hing, _⟩ := h.2
    have hch : chunks = ["hi".toList] := by
      have h2 : chunk_text "hi".toList 1000 200 ("hi".toList.length + 1)
          = some ["hi".toList] := rfl
      injection (h2.symm.trans hck) with h3
      exact h3.symm
    subst hch
    exact hing

end RagApp
